import Mathlib

/-!
# kpng: userspace-proxier endpoint table and kube2store label selector

A shallow embedding of

* `examples/userspace-proxier/service.go`: the per-service endpoint list with
  `RandomEndpoint`, `AddEndpoint` and `DeleteEndpoint`;
* `server/jobs/kube2store/kube2store.go`: `Job.getLabelSelector`.

Go slices are lists (a nil slice and an empty slice are both `[]`), a method
with a pointer receiver that mutates the receiver returns the new receiver, and
a Go panic or process exit is `none`.
-/

namespace Kpng

/-! ## Data model of `service.go` -/

/-- The operational view of a service endpoint (`type endpoint struct`). -/
structure endpoint where
  key : String
  targetIP : String
  deriving DecidableEq, Repr

/-- The operational view of a service for userspace proxying
(`type service struct`). -/
structure service where
  Name : String
  eps : List endpoint
  deriving DecidableEq, Repr

/-- Modelled from the spec: the type `localv1.IPSet` of the candidate's `IPs`
field, declared in the package `sigs.k8s.io/kpng/api/localv1`, which is not
among the sources. The spec writes a candidate as `{address:"10.0.0.5"}` and
calls `{address:""}` a candidate with "no resolvable address": the strings a
candidate carries are kept in order, and the empty string is no address. -/
structure IPSet where
  addrs : List String
  deriving DecidableEq, Repr

/-- Modelled from the spec: the resolvable addresses of a candidate, in order.
The package `localv1` is not among the sources; by the spec the empty string
stands for "no resolvable address", and records without one are "not stored
as empty-address entries". -/
def IPSet.resolvable (set : IPSet) : List String :=
  set.addrs.filter (fun a => a != "")

/-- Modelled from the spec: the method `IPSet.IsEmpty` of package `localv1`,
which is not among the sources: the candidate has no resolvable address. -/
def IPSet.IsEmpty (set : IPSet) : Bool :=
  set.resolvable.length == 0

/-- Modelled from the spec: the method `IPSet.First` of package `localv1`,
which is not among the sources: the first resolvable address of the
candidate, and the empty string when there is none. -/
def IPSet.First (set : IPSet) : String :=
  match set.resolvable with
  | [] => ""
  | a :: _ => a

/-- Modelled from the spec: the message type `localv1.Endpoint`, of which
`AddEndpoint` reads the field `IPs` only. -/
structure Endpoint where
  IPs : IPSet
  deriving DecidableEq, Repr

/-! ## Operations of `service.go` -/

/-- `func (svc *service) RandomEndpoint() string`.

`intn n` is the value `rand.Intn(n)` hands out at this call; `rand.Intn` is
evaluated only on the non-empty branch. Indexing past the end of the slice is a
Go panic, here `none`. -/
def RandomEndpoint (svc : service) (intn : Nat → Nat) : Option String :=
  let eps := svc.eps
  if eps.length = 0 then
    some ""
  else
    match eps[intn eps.length]? with
    | some ep => some ep.targetIP
    | none => none

/-- `func (svc *service) AddEndpoint(key string, ep *localv1.Endpoint)`. -/
def AddEndpoint (svc : service) (key : String) (ep : Endpoint) : service :=
  if ep.IPs.IsEmpty then
    svc
  else
    { svc with eps := svc.eps ++ [{ key := key, targetIP := ep.IPs.First }] }

/-- The body of the `for _, ep := range svc.eps` loop of `DeleteEndpoint`:
`continue` on a matching key, `eps = append(eps, ep)` otherwise. -/
def deleteStep (key : String) (eps : List endpoint) (ep : endpoint) : List endpoint :=
  if ep.key == key then eps else eps ++ [ep]

/-- `func (svc *service) DeleteEndpoint(key string)`: the list is rebuilt from
an empty slice by the loop and then stored. -/
def DeleteEndpoint (svc : service) (key : String) : service :=
  let eps := svc.eps.foldl (deleteStep key) []
  { svc with eps := eps }

/-- The contract of `math/rand.Intn`: for `n > 0` the draw lies in `[0, n)`. -/
def IntnInRange (intn : Nat → Nat) : Prop :=
  ∀ n, 0 < n → intn n < n

/-- A call of the writer side of the table. -/
inductive Op where
  | add (key : String) (ep : Endpoint)
  | delete (key : String)
  deriving DecidableEq, Repr

/-- Apply one writer call. -/
def Op.apply (svc : service) : Op → service
  | .add key ep => AddEndpoint svc key ep
  | .delete key => DeleteEndpoint svc key

/-- Apply a finite sequence of writer calls, first call first. -/
def applyOps (svc : service) (ops : List Op) : service :=
  ops.foldl Op.apply svc

/-! ## The label selector of `kube2store.go`

The packages `k8s.io/apimachinery/pkg/labels`, `.../pkg/selection` and
`k8s.io/api/core/v1` are libraries outside the repository. They enter through
their documented behaviour: a requirement is a key, an operator and a list of
values; `labels.NewRequirement` refuses a malformed key, a malformed value and
a number of values that does not fit the operator; `Selector.Add` returns the
requirements extended by the new one and ordered by key; a selector matches a
label set when every requirement does. -/

/-- The operators of `selection.Operator` that `getLabelSelector` uses. -/
inductive Operator where
  | DoesNotExist
  | Equals
  deriving DecidableEq, Repr

/-- A requirement of `labels.Requirement`: key, operator, values. -/
structure Requirement where
  key : String
  operator : Operator
  strValues : List String
  deriving DecidableEq, Repr

/-- The selector of package `labels`: the list of its requirements, all of
which must hold. -/
abbrev Selector := List Requirement

/-- The checks of label keys and label values that `labels.NewRequirement`
delegates to the validation package of the library. -/
structure LabelValidation where
  validKey : String → Bool
  validValue : String → Bool

/-- `labels.NewSelector()`: the selector without requirements. -/
def NewSelector : Selector := []

/-- `labels.NewRequirement(key, op, vals)`: `none` is the returned error. -/
def NewRequirement (V : LabelValidation) (key : String) (op : Operator)
    (vals : List String) : Option Requirement :=
  if !V.validKey key then
    none
  else if (match op with
      | .DoesNotExist => vals.length != 0
      | .Equals => vals.length != 1) then
    none
  else if !vals.all V.validValue then
    none
  else
    some { key := key, operator := op, strValues := vals }

/-- `ByKey.Less`: comparison of the keys as strings. -/
def keyLess (a b : Requirement) : Bool :=
  decide (a.key.toList < b.key.toList)

/-- One pass of the insertion sort that `sort.Sort` runs on a short slice: the
new element moves left past every element it is less than. -/
def insertByKey (r : Requirement) : List Requirement → List Requirement
  | [] => [r]
  | x :: xs => if keyLess r x then r :: x :: xs else x :: insertByKey r xs

/-- `sort.Sort(ByKey(ret))`. -/
def sortByKey (reqs : List Requirement) : List Requirement :=
  reqs.foldl (fun sorted r => insertByKey r sorted) []

/-- `Selector.Add(req)`: copy, append, sort by key. -/
def Selector.Add (sel : Selector) (req : Requirement) : Selector :=
  sortByKey (sel ++ [req])

/-- `Requirement.Matches` on a label set, given as its lookup function. -/
def Requirement.Matches (r : Requirement) (ls : String → Option String) : Bool :=
  match r.operator with
  | .DoesNotExist => (ls r.key).isNone
  | .Equals =>
    match ls r.key with
    | none => false
    | some v => r.strValues.contains v

/-- `Selector.Matches`: every requirement matches. -/
def Selector.Matches (sel : Selector) (ls : String → Option String) : Bool :=
  sel.all (fun r => r.Matches ls)

/-- `type K8sConfig struct`. -/
structure K8sConfig where
  UseSlices : Bool
  ServiceProxyName : String
  ServiceLabelGlobs : List String
  ServiceAnnonationGlobs : List String
  NodeLabelGlobs : List String
  NodeAnnotationGlobs : List String
  deriving DecidableEq, Repr

/-- `const LabelServiceProxyName`. -/
def LabelServiceProxyName : String := "service.kubernetes.io/service-proxy-name"

/-- `v1.IsHeadlessService` of `k8s.io/api/core/v1`. -/
def IsHeadlessService : String := "service.kubernetes.io/headless"

/-- `type Job struct`. The client set and the store are references that
`getLabelSelector` does not read; they are kept as handles. -/
structure Job where
  Kube : Nat
  Store : Nat
  Config : K8sConfig
  deriving DecidableEq, Repr

/-- The closure `addReq` of `getLabelSelector`, with the captured variable
`labelSelector` passed in and handed back; `klog.Exit(err)` ends the process,
here `none`. -/
def addReq (V : LabelValidation) (labelSelector : Selector) (key : String) (op : Operator)
    (v : List String) : Option Selector :=
  match NewRequirement V key op v with
  | none => none
  | some req => some (labelSelector.Add req)

/-- `func (j Job) getLabelSelector() labels.Selector`. -/
def getLabelSelector (V : LabelValidation) (j : Job) : Option Selector :=
  let labelSelector := NewSelector
  let proxyName := j.Config.ServiceProxyName
  match (if proxyName == "" then
      addReq V labelSelector LabelServiceProxyName .DoesNotExist []
    else
      addReq V labelSelector LabelServiceProxyName .Equals [proxyName]) with
  | none => none
  | some labelSelector => addReq V labelSelector IsHeadlessService .DoesNotExist []

/-- The selector that `getLabelSelector` is to build for an ownership name. -/
def expectedSelector (proxyName : String) : Selector :=
  [⟨IsHeadlessService, .DoesNotExist, []⟩,
    if proxyName = "" then ⟨LabelServiceProxyName, .DoesNotExist, []⟩
    else ⟨LabelServiceProxyName, .Equals, [proxyName]⟩]

/-- The pattern `([A-Za-z0-9][-A-Za-z0-9_.]*)?[A-Za-z0-9]` of the library. -/
def qualifiedNameChars (cs : List Char) : Bool :=
  match cs with
  | [] => false
  | c :: rest =>
    c.isAlphanum && (c :: rest).all (fun d => d.isAlphanum || d == '-' || d == '_' || d == '.')
      && ((c :: rest).getLast?.any Char.isAlphanum)

/-- The pattern `[a-z0-9]([-a-z0-9]*[a-z0-9])?` of a DNS label. -/
def dnsLabelChars (cs : List Char) : Bool :=
  match cs with
  | [] => false
  | c :: rest =>
    (c.isLower || c.isDigit) && (c :: rest).all (fun d => d.isLower || d.isDigit || d == '-')
      && ((c :: rest).getLast?.any (fun d => d.isLower || d.isDigit))

/-- The library check of a label value: at most 63 characters, empty or of the
qualified-name pattern. -/
def isValidLabelValue (s : String) : Bool :=
  decide (s.length ≤ 63) && (s.toList.isEmpty || qualifiedNameChars s.toList)

/-- The library check of a label key: a name of at most 63 characters of the
qualified-name pattern, optionally after a DNS subdomain of at most 253
characters and a slash. -/
def isQualifiedName (s : String) : Bool :=
  match s.toList.splitOn '/' with
  | [name] => decide (name.length ≤ 63) && qualifiedNameChars name
  | [domain, name] =>
    decide (domain.length ≤ 253) && (domain.splitOn '.').all dnsLabelChars
      && decide (name.length ≤ 63) && qualifiedNameChars name
  | _ => false

/-- The validation of the library, as an instance of the checks
`NewRequirement` takes. -/
def apimachineryValidation : LabelValidation :=
  { validKey := isQualifiedName, validValue := isValidLabelValue }

/-! ## Basic facts -/

theorem foldl_deleteStep (key : String) (acc l : List endpoint) :
    l.foldl (deleteStep key) acc = acc ++ l.filter (fun ep => !(ep.key == key)) := by
  induction l generalizing acc with
  | nil => simp
  | cons a t ih =>
    rw [List.foldl_cons, ih]
    by_cases h : a.key = key
    · simp [deleteStep, h]
    · simp [deleteStep, h]

theorem DeleteEndpoint_eps (svc : service) (key : String) :
    (DeleteEndpoint svc key).eps = svc.eps.filter (fun ep => !(ep.key == key)) := by
  simp [DeleteEndpoint, foldl_deleteStep]

theorem RandomEndpoint_of_lt (svc : service) (intn : Nat → Nat) (r : Nat)
    (hr : r < svc.eps.length) (hdraw : intn svc.eps.length = r) :
    RandomEndpoint svc intn = some (svc.eps.get ⟨r, hr⟩).targetIP := by
  have hne : ¬ svc.eps.length = 0 := by omega
  simp only [RandomEndpoint, hne, if_false, hdraw, List.getElem?_eq_getElem hr]
  rfl

theorem mem_DeleteEndpoint (svc : service) (key : String) (e : endpoint) :
    e ∈ (DeleteEndpoint svc key).eps ↔ e ∈ svc.eps ∧ e.key ≠ key := by
  simp [DeleteEndpoint_eps]

theorem mem_AddEndpoint (svc : service) (key : String) (ep : Endpoint) (e : endpoint) :
    e ∈ (AddEndpoint svc key ep).eps ↔
      e ∈ svc.eps ∨ (ep.IPs.IsEmpty = false ∧ e = ⟨key, ep.IPs.First⟩) := by
  unfold AddEndpoint
  cases h : ep.IPs.IsEmpty <;> simp

theorem applyOps_append (svc : service) (ops : List Op) (op : Op) :
    applyOps svc (ops ++ [op]) = Op.apply (applyOps svc ops) op := by
  simp [applyOps]

/-- Every draw within range returns the address of a member of the list. -/
theorem RandomEndpoint_mem (svc : service) (intn : Nat → Nat) (hin : IntnInRange intn) :
    RandomEndpoint svc intn = some "" ∨
      ∃ e ∈ svc.eps, RandomEndpoint svc intn = some e.targetIP := by
  by_cases h : svc.eps.length = 0
  · left
    simp [RandomEndpoint, h]
  · right
    have hr : intn svc.eps.length < svc.eps.length := hin _ (by omega)
    exact ⟨svc.eps.get ⟨_, hr⟩, List.get_mem _ _ _, RandomEndpoint_of_lt svc intn _ hr rfl⟩

theorem headless_lt_proxyName :
    IsHeadlessService.toList < LabelServiceProxyName.toList := by
  decide

/-- Adding the headless requirement to a selector that holds one requirement on
the ownership label puts the headless requirement first. -/
theorem Add_headless (op : Operator) (vs : List String) :
    Selector.Add (Selector.Add NewSelector ⟨LabelServiceProxyName, op, vs⟩)
        ⟨IsHeadlessService, .DoesNotExist, []⟩
      = [⟨IsHeadlessService, .DoesNotExist, []⟩, ⟨LabelServiceProxyName, op, vs⟩] := by
  have hk : keyLess ⟨IsHeadlessService, .DoesNotExist, []⟩ ⟨LabelServiceProxyName, op, vs⟩
      = true := by
    simp only [keyLess]
    exact decide_eq_true headless_lt_proxyName
  simp only [Selector.Add, NewSelector, sortByKey, List.nil_append, List.foldl_cons,
    List.foldl_nil, insertByKey, List.singleton_append, hk, if_true]

/-- What `getLabelSelector` returns, by the answers of the validation. -/
theorem getLabelSelector_eq (V : LabelValidation) (j : Job) :
    getLabelSelector V j =
      if V.validKey LabelServiceProxyName = true ∧ V.validKey IsHeadlessService = true
          ∧ (j.Config.ServiceProxyName = "" ∨ V.validValue j.Config.ServiceProxyName = true)
      then some (expectedSelector j.Config.ServiceProxyName) else none := by
  unfold getLabelSelector expectedSelector
  by_cases hn : j.Config.ServiceProxyName = ""
  · cases h1 : V.validKey LabelServiceProxyName <;> cases h2 : V.validKey IsHeadlessService <;>
      simp [addReq, NewRequirement, hn, h1, h2, Add_headless]
  · cases h1 : V.validKey LabelServiceProxyName <;> cases h2 : V.validKey IsHeadlessService <;>
      cases h3 : V.validValue j.Config.ServiceProxyName <;>
      simp [addReq, NewRequirement, hn, h1, h2, h3, Add_headless]

/-- The first address of a candidate with a resolvable address is not the
empty string. -/
theorem First_ne_empty (set : IPSet) (h : set.IsEmpty = false) : set.First ≠ "" := by
  unfold IPSet.IsEmpty at h
  unfold IPSet.First
  cases hr : set.resolvable with
  | nil => simp [hr] at h
  | cons a t =>
    have ha : a ∈ set.resolvable := by simp [hr]
    unfold IPSet.resolvable at ha
    simpa using (List.mem_filter.1 ha).2

/-- Every entry stored by a sequence of writer calls on the empty list comes
from an `AddEndpoint` call of the sequence, under the entry's key, with a
candidate that passed the guard of `AddEndpoint`. -/
theorem applyOps_provenance (name : String) (ops : List Op) :
    ∀ e ∈ (applyOps { Name := name, eps := [] } ops).eps,
      ∃ ep : Endpoint, Op.add e.key ep ∈ ops ∧ ep.IPs.IsEmpty = false
        ∧ e.targetIP = ep.IPs.First := by
  induction ops using List.reverseRecOn with
  | nil => intro e he; simp [applyOps] at he
  | append_singleton ops op ih =>
    intro e he
    rw [applyOps_append] at he
    cases op with
    | add key ep =>
      rcases (mem_AddEndpoint _ key ep e).1 he with h | ⟨h1, h2⟩
      · obtain ⟨ep2, hm, hne, hf⟩ := ih e h
        exact ⟨ep2, List.mem_append_left _ hm, hne, hf⟩
      · subst h2
        exact ⟨ep, by simp, h1, rfl⟩
    | delete key =>
      obtain ⟨ep2, hm, hne, hf⟩ := ih e ((mem_DeleteEndpoint _ key e).1 he).1
      exact ⟨ep2, List.mem_append_left _ hm, hne, hf⟩

/-! ## The claims -/

/-- C1: on a service with a non-empty endpoint list, a draw `r` with
`0 <= r < length` makes `RandomEndpoint` return the target address of the
`r`-th entry: the index is in bounds (the call does not fail), the result is
the address of a member of the list, and the draws `0, ..., length - 1` return
the addresses of the entries one for one in list order, so that every address
is returned by exactly as many draws as there are entries holding it. -/
theorem RandomEndpoint_draw (svc : service) (intn : Nat → Nat) (r : Nat)
    (hr : r < svc.eps.length) (hdraw : intn svc.eps.length = r) :
    RandomEndpoint svc intn = some (svc.eps.get ⟨r, hr⟩).targetIP
    ∧ (∃ e ∈ svc.eps, RandomEndpoint svc intn = some e.targetIP)
    ∧ (List.range svc.eps.length).map (fun d => RandomEndpoint svc (fun _ => d))
        = svc.eps.map (fun e => some e.targetIP)
    ∧ ∀ a : String,
        ((List.range svc.eps.length).filter
          (fun d => decide (RandomEndpoint svc (fun _ => d) = some a))).length
        = (svc.eps.filter (fun e => decide (e.targetIP = a))).length := by
  have hmap : (List.range svc.eps.length).map (fun d => RandomEndpoint svc (fun _ => d))
      = svc.eps.map (fun e => some e.targetIP) := by
    apply List.ext_getElem
    · simp
    · intro i h1 h2
      have hi : i < svc.eps.length := by simpa using h2
      simp only [List.getElem_map, List.getElem_range]
      exact RandomEndpoint_of_lt svc (fun _ => i) i hi rfl
  refine ⟨RandomEndpoint_of_lt svc intn r hr hdraw, ?_, hmap, ?_⟩
  · exact ⟨svc.eps.get ⟨r, hr⟩, List.get_mem _ _ _, RandomEndpoint_of_lt svc intn r hr hdraw⟩
  · intro a
    have h1 : ((List.range svc.eps.length).filter
          (fun d => decide (RandomEndpoint svc (fun _ => d) = some a))).length
        = (((List.range svc.eps.length).map (fun d => RandomEndpoint svc (fun _ => d))).filter
            (fun o => decide (o = some a))).length := by
      rw [List.filter_map, List.length_map]
      rfl
    have h2 : (svc.eps.filter (fun e => decide (e.targetIP = a))).length
        = ((svc.eps.map (fun e => some e.targetIP)).filter
            (fun o => decide (o = some a))).length := by
      rw [List.filter_map, List.length_map]
      congr 2
      funext e
      simp
    rw [h1, h2, hmap]

/-- C1, at the list `[pod1 -> 10.0.0.5, pod2 -> 10.0.0.6]` and the draw 1. -/
theorem RandomEndpoint_draw_witness :
    RandomEndpoint ⟨"svc", [⟨"pod1", "10.0.0.5"⟩, ⟨"pod2", "10.0.0.6"⟩]⟩ (fun _ => 1)
      = some "10.0.0.6" :=
  (RandomEndpoint_draw ⟨"svc", [⟨"pod1", "10.0.0.5"⟩, ⟨"pod2", "10.0.0.6"⟩]⟩ (fun _ => 1) 1
    (by decide) rfl).1

/-- C2: on a service whose endpoint list is empty, whatever its name and
whatever the random source would answer, `RandomEndpoint` returns the empty
string; the call does not fail and its result does not depend on the random
source. -/
theorem RandomEndpoint_empty (name : String) (intn : Nat → Nat) :
    RandomEndpoint { Name := name, eps := [] } intn = some "" := by
  simp [RandomEndpoint]

/-- C3: with a candidate whose IP set is non-empty, `AddEndpoint` makes the
list the previous list followed by the one entry `(key, first address)`: the
length grows by one, every earlier entry keeps its value and position, the
number of entries with this key grows by one, the name is kept, and a second
Add of the same key leaves two entries. -/
theorem AddEndpoint_append (svc : service) (key : String) (ep : Endpoint)
    (h : ep.IPs.IsEmpty = false) :
    (AddEndpoint svc key ep).eps = svc.eps ++ [⟨key, ep.IPs.First⟩]
    ∧ (AddEndpoint svc key ep).eps.length = svc.eps.length + 1
    ∧ (∀ i (hi : i < svc.eps.length),
        (AddEndpoint svc key ep).eps[i]? = some (svc.eps.get ⟨i, hi⟩))
    ∧ ((AddEndpoint svc key ep).eps.filter (fun e => decide (e.key = key))).length
        = (svc.eps.filter (fun e => decide (e.key = key))).length + 1
    ∧ (AddEndpoint svc key ep).Name = svc.Name
    ∧ ∀ ep2 : Endpoint, ep2.IPs.IsEmpty = false →
        (AddEndpoint (AddEndpoint svc key ep) key ep2).eps
          = svc.eps ++ [⟨key, ep.IPs.First⟩, ⟨key, ep2.IPs.First⟩] := by
  have h1 : (AddEndpoint svc key ep).eps = svc.eps ++ [⟨key, ep.IPs.First⟩] := by
    simp [AddEndpoint, h]
  refine ⟨h1, ?_, ?_, ?_, ?_, ?_⟩
  · simp [h1]
  · intro i hi
    rw [h1, List.getElem?_append_left hi, List.getElem?_eq_getElem hi]
    rfl
  · simp [h1, List.filter_append]
  · simp [AddEndpoint, h]
  · intro ep2 h2
    simp [AddEndpoint, h, h2]

/-- C3, at a list that already holds the key `pod1`. -/
theorem AddEndpoint_append_witness :
    (AddEndpoint ⟨"svc", [⟨"pod1", "10.0.0.5"⟩]⟩ "pod1" ⟨⟨["10.0.0.7", "10.0.0.8"]⟩⟩).eps
      = [⟨"pod1", "10.0.0.5"⟩] ++ [⟨"pod1", "10.0.0.7"⟩] :=
  (AddEndpoint_append ⟨"svc", [⟨"pod1", "10.0.0.5"⟩]⟩ "pod1" ⟨⟨["10.0.0.7", "10.0.0.8"]⟩⟩
    (by decide)).1

/-- C4: with a candidate whose IP set is empty, `AddEndpoint` changes nothing:
the service is the same, so are its list, the length of the list and its name,
and `RandomEndpoint` answers every random source as before. -/
theorem AddEndpoint_noop (svc : service) (key : String) (ep : Endpoint)
    (h : ep.IPs.IsEmpty = true) :
    AddEndpoint svc key ep = svc
    ∧ (AddEndpoint svc key ep).eps = svc.eps
    ∧ (AddEndpoint svc key ep).eps.length = svc.eps.length
    ∧ (AddEndpoint svc key ep).Name = svc.Name
    ∧ ∀ intn : Nat → Nat,
        RandomEndpoint (AddEndpoint svc key ep) intn = RandomEndpoint svc intn := by
  have h1 : AddEndpoint svc key ep = svc := by simp [AddEndpoint, h]
  simp [h1]

/-- C4, at the candidate `pod3` without an address. -/
theorem AddEndpoint_noop_witness :
    AddEndpoint ⟨"svc", [⟨"pod1", "10.0.0.5"⟩]⟩ "pod3" ⟨⟨[]⟩⟩
      = ⟨"svc", [⟨"pod1", "10.0.0.5"⟩]⟩ :=
  (AddEndpoint_noop ⟨"svc", [⟨"pod1", "10.0.0.5"⟩]⟩ "pod3" ⟨⟨[]⟩⟩ (by decide)).1

/-- C5: after `DeleteEndpoint(k)` the list is the previous list without the
entries of key `k`: all of them are gone, an entry is in the new list exactly
when it was in the old one under another key, the entries kept stand in their
previous relative order, and the name is kept. -/
theorem DeleteEndpoint_filter (svc : service) (k : String) :
    (DeleteEndpoint svc k).eps = svc.eps.filter (fun e => decide (e.key ≠ k))
    ∧ (∀ e ∈ (DeleteEndpoint svc k).eps, e.key ≠ k)
    ∧ (∀ e, e ∈ (DeleteEndpoint svc k).eps ↔ e ∈ svc.eps ∧ e.key ≠ k)
    ∧ List.Sublist (DeleteEndpoint svc k).eps svc.eps
    ∧ (DeleteEndpoint svc k).Name = svc.Name := by
  have h1 : (DeleteEndpoint svc k).eps = svc.eps.filter (fun e => decide (e.key ≠ k)) := by
    rw [DeleteEndpoint_eps]
    congr 1
    funext e
    by_cases he : e.key = k <;> simp [he]
  refine ⟨h1, ?_, ?_, ?_, rfl⟩
  · intro e he
    exact ((mem_DeleteEndpoint svc k e).1 he).2
  · exact mem_DeleteEndpoint svc k
  · rw [h1]
    exact List.filter_sublist _

/-- C6: when no entry of the list has the key `k`, `DeleteEndpoint(k)` leaves
the list as it was, element for element, and the service with it. -/
theorem DeleteEndpoint_absent (svc : service) (k : String)
    (h : ∀ e ∈ svc.eps, e.key ≠ k) :
    (DeleteEndpoint svc k).eps = svc.eps
    ∧ (DeleteEndpoint svc k).eps.length = svc.eps.length
    ∧ DeleteEndpoint svc k = svc := by
  have h1 : (DeleteEndpoint svc k).eps = svc.eps := by
    rw [DeleteEndpoint_eps, List.filter_eq_self]
    intro e he
    simpa using h e he
  refine ⟨h1, by rw [h1], ?_⟩
  cases svc
  simp only [DeleteEndpoint] at h1 ⊢
  simp [h1]

/-- C6, at a list without the key `pod9`. -/
theorem DeleteEndpoint_absent_witness :
    (DeleteEndpoint ⟨"svc", [⟨"pod1", "10.0.0.5"⟩, ⟨"pod2", "10.0.0.6"⟩]⟩ "pod9").eps
      = [⟨"pod1", "10.0.0.5"⟩, ⟨"pod2", "10.0.0.6"⟩] :=
  (DeleteEndpoint_absent ⟨"svc", [⟨"pod1", "10.0.0.5"⟩, ⟨"pod2", "10.0.0.6"⟩]⟩ "pod9"
    (by decide)).1

/-- C7: the selector built by `getLabelSelector` is the conjunction of exactly
two requirements: on the ownership label `service.kubernetes.io/service-proxy-name`,
"does not exist" when `ServiceProxyName` is empty and "equals `ServiceProxyName`"
otherwise, and "does not exist" on the headless label; a label set matches it
exactly when it meets both. The selector is built whenever the library accepts
the two label keys and, for a non-empty name, the name as a label value (as for
"nginx"), and the result depends on the job through `ServiceProxyName` only. -/
theorem getLabelSelector_requirements (V : LabelValidation) (j : Job) :
    (∀ sel : Selector, getLabelSelector V j = some sel →
      sel.length = 2
      ∧ (j.Config.ServiceProxyName = "" →
          List.Perm sel [⟨LabelServiceProxyName, .DoesNotExist, []⟩,
            ⟨IsHeadlessService, .DoesNotExist, []⟩])
      ∧ (j.Config.ServiceProxyName ≠ "" →
          List.Perm sel [⟨LabelServiceProxyName, .Equals, [j.Config.ServiceProxyName]⟩,
            ⟨IsHeadlessService, .DoesNotExist, []⟩])
      ∧ ∀ ls : String → Option String, Selector.Matches sel ls = true ↔
          (if j.Config.ServiceProxyName = "" then ls LabelServiceProxyName = none
            else ls LabelServiceProxyName = some j.Config.ServiceProxyName)
          ∧ ls IsHeadlessService = none)
    ∧ (V.validKey LabelServiceProxyName = true → V.validKey IsHeadlessService = true →
        (j.Config.ServiceProxyName = "" ∨ V.validValue j.Config.ServiceProxyName = true) →
        ∃ sel : Selector, getLabelSelector V j = some sel)
    ∧ ∀ j2 : Job, j2.Config.ServiceProxyName = j.Config.ServiceProxyName →
        getLabelSelector V j2 = getLabelSelector V j := by
  refine ⟨?_, ?_, ?_⟩
  · intro sel hsel
    rw [getLabelSelector_eq] at hsel
    split at hsel
    · injection hsel with hsel
      subst hsel
      by_cases hn : j.Config.ServiceProxyName = ""
      · refine ⟨rfl, fun _ => ?_, fun h => absurd hn h, ?_⟩
        · simp only [expectedSelector, hn, if_true]
          exact List.Perm.swap _ _ _
        · intro ls
          simp [expectedSelector, hn, Selector.Matches, Requirement.Matches, and_comm]
      · refine ⟨rfl, fun h => absurd h hn, fun _ => ?_, ?_⟩
        · simp only [expectedSelector, hn, if_false]
          exact List.Perm.swap _ _ _
        · intro ls
          cases hl : ls LabelServiceProxyName with
          | none => simp [expectedSelector, hn, Selector.Matches, Requirement.Matches, hl]
          | some v =>
            simp only [expectedSelector, hn, if_false, Selector.Matches, Requirement.Matches, hl,
              List.all_cons, List.all_nil, Bool.and_true, Bool.and_eq_true,
              Option.isNone_iff_eq_none, List.contains_cons, List.contains_nil, Bool.or_false,
              beq_iff_eq, Option.some.injEq]
            exact and_comm
    · exact absurd hsel (by simp)
  · intro h1 h2 h3
    exact ⟨expectedSelector j.Config.ServiceProxyName, by
      rw [getLabelSelector_eq, if_pos ⟨h1, h2, h3⟩]⟩
  · intro j2 h
    rw [getLabelSelector_eq, getLabelSelector_eq, h]

/-- C7, at the ownership name "nginx" with the validation of the library. -/
theorem getLabelSelector_requirements_witness :
    ∃ sel : Selector,
      getLabelSelector apimachineryValidation ⟨0, 0, ⟨false, "nginx", [], [], [], []⟩⟩
        = some sel :=
  (getLabelSelector_requirements apimachineryValidation
    ⟨0, 0, ⟨false, "nginx", [], [], [], []⟩⟩).2.1 (by decide) (by decide) (Or.inr (by decide))

/-- C8: starting from a service with an empty endpoint list, after every
finite sequence of `AddEndpoint` and `DeleteEndpoint` calls with arbitrary keys
and arbitrary candidates, no entry of the list has an empty target address, and
every entry is the key and the first address of a candidate with a resolvable
address that an `AddEndpoint` call of the sequence was given under that key: an
endpoint without a resolvable address is never materialized. -/
theorem applyOps_targetIP_ne_empty (name : String) (ops : List Op) :
    (∀ e ∈ (applyOps { Name := name, eps := [] } ops).eps, e.targetIP ≠ "")
    ∧ ∀ e ∈ (applyOps { Name := name, eps := [] } ops).eps,
        ∃ ep : Endpoint, Op.add e.key ep ∈ ops ∧ ep.IPs.IsEmpty = false
          ∧ e.targetIP = ep.IPs.First := by
  refine ⟨?_, applyOps_provenance name ops⟩
  intro e he
  obtain ⟨ep, _, hne, hf⟩ := applyOps_provenance name ops e he
  rw [hf]
  exact First_ne_empty ep.IPs hne

/-- C9: after `DeleteEndpoint(k)`, `RandomEndpoint` returns, for every draw of
the random source, the empty string or the address of an entry of the list
before the delete whose key is not `k`. In particular, on an empty service and
for keys `k1 ≠ k2`, after `AddEndpoint(k1, a)`, `AddEndpoint(k2, b)` and
`DeleteEndpoint(k1)` it returns the address of `b` for every draw. -/
theorem RandomEndpoint_after_Delete (svc : service) (k : String) (intn : Nat → Nat)
    (hin : IntnInRange intn) :
    (RandomEndpoint (DeleteEndpoint svc k) intn = some "" ∨
      ∃ e ∈ svc.eps, e.key ≠ k ∧ RandomEndpoint (DeleteEndpoint svc k) intn = some e.targetIP)
    ∧ ∀ (name k1 k2 : String) (a b : Endpoint), k1 ≠ k2 →
        a.IPs.IsEmpty = false → b.IPs.IsEmpty = false →
        RandomEndpoint
          (DeleteEndpoint (AddEndpoint (AddEndpoint { Name := name, eps := [] } k1 a) k2 b) k1)
          intn = some b.IPs.First := by
  constructor
  · rcases RandomEndpoint_mem (DeleteEndpoint svc k) intn hin with h | ⟨e, he, h⟩
    · exact Or.inl h
    · obtain ⟨h1, h2⟩ := (mem_DeleteEndpoint svc k e).1 he
      exact Or.inr ⟨e, h1, h2, h⟩
  · intro name k1 k2 a b hk ha hb
    have hl : (DeleteEndpoint (AddEndpoint (AddEndpoint { Name := name, eps := [] } k1 a) k2 b)
        k1).eps = [⟨k2, b.IPs.First⟩] := by
      simp [DeleteEndpoint_eps, AddEndpoint, ha, hb, List.filter_cons, hk, Ne.symm hk]
    have h0 : intn 1 = 0 := by
      have := hin 1 (by decide)
      omega
    simp [RandomEndpoint, hl, h0]

/-- C9, at pod1 -> 10.0.0.5, pod2 -> 10.0.0.6, delete pod1. -/
theorem RandomEndpoint_after_Delete_witness :
    RandomEndpoint
      (DeleteEndpoint (AddEndpoint (AddEndpoint { Name := "svc", eps := [] } "pod1"
        ⟨⟨["10.0.0.5"]⟩⟩) "pod2" ⟨⟨["10.0.0.6"]⟩⟩) "pod1")
      (fun _ => 0) = some "10.0.0.6" :=
  (RandomEndpoint_after_Delete { Name := "svc", eps := [] } "pod1" (fun _ => 0)
    (fun _ h => h)).2 "svc" "pod1" "pod2" ⟨⟨["10.0.0.5"]⟩⟩ ⟨⟨["10.0.0.6"]⟩⟩
    (by decide) (by decide) (by decide)

end Kpng
